import Mathlib

/-!
Shallow embedding of scripts/02-enhance-source-urls.py: a stdin-to-stdout
filter that enriches source URLs in a JSON dataset.  Python string
primitives are modelled over List Char (ASCII model of str.lower and
str.strip), the external effects (the claude CLI call and the HTTP fetch
used for validation) are modelled as oracle functions, and the parallel
fan-out/fan-in of the impact workers is modelled as an arbitrary
reordering of the indexed task list.
-/

/-- ASCII model of Python str.lower on a single character. -/
def char_lower (c : Char) : Char :=
  if 'A' ≤ c ∧ c ≤ 'Z' then Char.ofNat (c.toNat + 32) else c

/-- Model of Python str.lower. -/
def py_lower (s : String) : String :=
  String.mk (s.toList.map char_lower)

/-- Whitespace characters stripped by Python str.strip (ASCII model). -/
def is_space (c : Char) : Bool :=
  c = ' ' || c = '\t' || c = '\n' || c = '\r'

/-- Model of Python str.strip with no argument. -/
def py_strip (s : String) : String :=
  String.mk (((s.toList.dropWhile is_space).reverse.dropWhile is_space).reverse)

/-- Model of Python str.startswith. -/
def py_startswith (s pre : String) : Bool :=
  pre.toList.isPrefixOf s.toList

/-- Model of Python str.endswith. -/
def py_endswith (s suf : String) : Bool :=
  suf.toList.isSuffixOf s.toList

/-- Does pat occur as a contiguous sublist of l?  Model of the Python
substring test `pat in l`. -/
def contains_sub (l pat : List Char) : Bool :=
  match l with
  | [] => pat.isEmpty
  | c :: rest => pat.isPrefixOf (c :: rest) || contains_sub rest pat

/-- Model of the Python substring test `pat in s` on strings. -/
def str_contains (s pat : String) : Bool :=
  contains_sub s.toList pat.toList

/-- Split a character list on a single separator character, keeping empty
segments; model of Python str.split with a one-character separator. -/
def split_on_char (sep : Char) : List Char → List (List Char)
  | [] => [[]]
  | c :: rest =>
    match split_on_char sep rest with
    | [] => [[c]]
    | h :: t => if c = sep then [] :: h :: t else (c :: h) :: t

/-- Model of Python s.split(sep) for a one-character separator. -/
def py_split (s : String) (sep : Char) : List String :=
  (split_on_char sep s.toList).map String.mk

/-- Model of Python pattern.rstrip("/"). -/
def rstrip_slash (p : String) : String :=
  String.mk ((p.toList.reverse.dropWhile (fun c => c = '/')).reverse)

/-- The query component of a URL as extracted by urllib.parse.urlparse:
the part after the first question mark of the part before the first hash. -/
def url_query (url : String) : String :=
  let beforeFrag := (split_on_char '#' url.toList).headD []
  match split_on_char '?' beforeFrag with
  | [] => ""
  | _ :: rest => String.mk (List.intercalate ['?'] rest)

/-- Left-to-right non-overlapping replacement of pat by rep; model of
Python str.replace. -/
def replace_chars (pat rep : List Char) : List Char → List Char
  | [] => []
  | c :: rest =>
    if pat.isPrefixOf (c :: rest) && !pat.isEmpty then
      rep ++ replace_chars pat rep (rest.drop (pat.length - 1))
    else
      c :: replace_chars pat rep rest
termination_by l => l.length
decreasing_by
  · simp only [List.length_drop, List.length_cons]
    omega
  · simp only [List.length_cons]
    omega

/-- Model of Python s.replace(pat, rep). -/
def py_replace (s pat rep : String) : String :=
  String.mk (replace_chars pat.toList rep.toList s.toList)

/-! ## Data model (JSON records read by the script)

Each record keeps the fields the script reads by name; other JSON fields
are carried opaquely in an extra payload so that frame properties are
meaningful.  Collections the script reads with dict.get(key, default) are
Option-valued: none models an absent key. -/

/-- One entry of an event's sources array: { url: string-or-null, ... }. -/
structure Source where
  url : Option String
  extra : List (String × String)
deriving DecidableEq

/-- An event record. -/
structure Event where
  id : String
  title : String
  description : String
  awsServicesAffected : List String
  sources : Option (List Source)
  extra : List (String × String)
deriving DecidableEq

/-- An eventImpacts record. -/
structure Impact where
  serviceId : String
  featureId : String
  impactType : String
  description : String
  sourceUrl : Option String
  extra : List (String × String)
deriving DecidableEq

/-- A feature of a service (id + name). -/
structure Feature where
  id : String
  name : String
deriving DecidableEq

/-- A services record, read-only lookup context. -/
structure Service where
  id : String
  name : String
  company : String
  features : Option (List Feature)
  extra : List (String × String)
deriving DecidableEq

/-- The root JSON document. -/
structure Dataset where
  events : Option (List Event)
  eventImpacts : Option (List Impact)
  services : Option (List Service)
  extra : List (String × String)
deriving DecidableEq

/-! ## Quality classifier -/

/-- GENERIC_PATTERNS from the script. -/
def GENERIC_PATTERNS : List String :=
  ["status.", "/status", "/health", "support."]

/-- is_problematic_url: true when the url is null or empty, otherwise
scans GENERIC_PATTERNS; a pattern fires only when it occurs in the
lower-cased url, the url has no query component, and the lower-cased url
ends with the pattern (with a trailing slash stripped from the pattern). -/
def is_problematic_url (url : Option String) : Bool :=
  match url with
  | none => true
  | some u =>
    if u = "" then true
    else
      let url_lower := py_lower u
      GENERIC_PATTERNS.any (fun pattern =>
        str_contains url_lower pattern &&
          (decide (url_query u = "") && py_endswith url_lower (rstrip_slash pattern)))

/-! ## Research client (claude CLI) -/

/-- Outcome of one subprocess.run invocation of the claude CLI: normal
completion with a return code, stdout and stderr; expiry of the wall-clock
timeout; or any other raised exception. -/
inductive AgentOutcome where
  | completed (returncode : Int) (stdout : String) (stderr : String)
  | timeoutExpired
  | exn
deriving DecidableEq

/-- call_claude: runs the agent on a prompt; returns the stripped stdout,
or none when the return code is non-zero, the stripped output is empty,
the lower-cased output contains the credit marker, the timeout expires,
or any exception is raised. -/
def call_claude (agent : String → AgentOutcome) (prompt : String) : Option String :=
  match agent prompt with
  | .timeoutExpired => none
  | .exn => none
  | .completed rc stdout _stderr =>
    let output := py_strip stdout
    if rc ≠ 0 ∨ output = "" ∨ str_contains (py_lower output) "credit" = true then
      none
    else
      some output

/-! ## Validator -/

/-- Outcome of requests.get on a URL: a response with a final status code
and text body, or any raised exception (network error, timeout, ...). -/
inductive FetchResult where
  | success (status : Nat) (text : String)
  | failure
deriving DecidableEq

/-- validate_url: false on any fetch exception or a status code other
than 200; otherwise true iff the lower-cased body contains at least one
lower-cased keyword. -/
def validate_url (fetch : String → FetchResult) (url : String) (keywords : List String) : Bool :=
  match fetch url with
  | .failure => false
  | .success status text =>
    if status ≠ 200 then false
    else
      let content_lower := py_lower text
      keywords.any (fun keyword => str_contains content_lower (py_lower keyword))

/-! ## Candidate extraction from the free-form response -/

/-- The inline extraction loop shared by enhance_event_source and
enhance_impact_source: split the response on newlines, scan the lines in
reverse order, return the first stripped line that starts with http. -/
def extract_url (result : String) : Option String :=
  (py_split result '\n').reverse.findSome? (fun line =>
    let l := py_strip line
    if py_startswith l "http" then some l else none)

/-- How a non-failed response is treated by the enhancement functions. -/
inductive ResponseOutcome where
  | explicitNone
  | candidate (url : String)
  | miss
deriving DecidableEq

/-- The branch structure applied to a response: the NONE sentinel is an
explicit no-answer (strict string equality); otherwise the extraction
loop either yields a candidate URL or misses. -/
def classify_response (result : String) : ResponseOutcome :=
  if result = "NONE" then .explicitNone
  else
    match extract_url result with
    | some u => .candidate u
    | none => .miss

/-! ## Query builders (pure string construction) -/

/-- The event-level research prompt built in enhance_event_source. -/
def event_prompt (event : Event) : String :=
  "Search the web for a primary source URL documenting the AWS US-EAST-1 outage on October 20, 2025.\n\nEvent: "
    ++ event.title
    ++ "\nDescription: " ++ event.description
    ++ "\nAWS Services: " ++ String.intercalate ", " event.awsServicesAffected
    ++ "\n\nFind the BEST URL that:\n1. Will be valid long-term (not just a status homepage)\n2. Is an official AWS post-mortem, incident report, or major news article\n3. Contains specific identifiers (date, incident ID)\n\nReply with the single best URL on its own line at the end of your response."

/-- The impact-level research prompt built in enhance_impact_source;
feature_display models the Python expression feature_name or feature_id. -/
def impact_prompt (service_name company feature_display : String) (impact : Impact) : String :=
  "Search the web for documentation that " ++ service_name ++ " (company: " ++ company
    ++ ") was impacted during the AWS US-EAST-1 outage on October 20, 2025.\n\nBACKGROUND: On October 20, 2025, AWS US-EAST-1 region had a major outage affecting DynamoDB, Route53, and other services. This caused widespread impact on hundreds of internet services and apps.\n\nSERVICE DETAILS:\n- Service: "
    ++ service_name ++ " (ID: " ++ impact.serviceId ++ ")\n- Company: " ++ company
    ++ "\n- Feature affected: " ++ feature_display
    ++ "\n- Impact type: " ++ impact.impactType
    ++ "\n- What happened: " ++ impact.description
    ++ "\n\nTASK: Search for and find the BEST URL that documents this specific impact. Look for:\n1. Official "
    ++ company
    ++ " status page with this specific October 20, 2025 incident\n2. News articles from TechCrunch, The Verge, Ars Technica, etc. mentioning \""
    ++ service_name
    ++ "\" and \"AWS outage\" October 2025\n3. Reddit threads, Twitter/X posts from official "
    ++ company
    ++ " account about the outage\n4. DownDetector or similar service tracking sites\n\nIMPORTANT: The URL must be PERMANENT (not just homepage). If you find something, reply with ONLY the URL on the last line."

/-- Relevance keywords used to validate an event-level candidate. -/
def event_keywords (event : Event) : List String :=
  event.awsServicesAffected ++ ["AWS", "outage", "US-EAST-1"]

/-- Relevance keywords used to validate an impact-level candidate. -/
def impact_keywords (impact : Impact) : List String :=
  [py_replace impact.serviceId "-" " ", impact.impactType, "AWS", "outage"]

/-! ## Enhancement of one event source and one impact -/

/-- The body of the per-source loop of enhance_event_source: when the url
is problematic, research with the event prompt, treat a NONE response as
an explicit no-answer, extract a candidate from any other response, and
overwrite the url only when validation succeeds.  Every other path keeps
the source unchanged. -/
def enhance_source (agent : String → AgentOutcome) (fetch : String → FetchResult)
    (event : Event) (source : Source) : Source :=
  if is_problematic_url source.url then
    match call_claude agent (event_prompt event) with
    | none => source
    | some result =>
      match classify_response result with
      | .explicitNone => source
      | .miss => source
      | .candidate u =>
        if validate_url fetch u (event_keywords event) then
          { source with url := some u }
        else source
  else source

/-- enhance_event_source: applies the per-source enhancement to every
entry of the sources array (event.get("sources", [])). -/
def enhance_event_source (agent : String → AgentOutcome) (fetch : String → FetchResult)
    (event : Event) : Event :=
  { event with sources := event.sources.map (List.map (enhance_source agent fetch event)) }

/-- enhance_impact_source: when the sourceUrl is problematic, looks up the
service and feature names in the read-only services table (falling back to
the raw identifiers), researches with the impact prompt, and overwrites
sourceUrl only when validation of the extracted candidate succeeds.  The
event_context argument is accepted but never read, as in the script. -/
def enhance_impact_source (agent : String → AgentOutcome) (fetch : String → FetchResult)
    (impact : Impact) (event_context : Option Event) (all_services : List Service) : Impact :=
  if is_problematic_url impact.sourceUrl then
    let service := all_services.find? (fun s => s.id = impact.serviceId)
    let service_name := match service with
      | some s => s.name
      | none => impact.serviceId
    let company := match service with
      | some s => s.company
      | none => "Unknown"
    let feature_name : Option String := match service with
      | none => none
      | some s =>
        match (s.features.getD []).find? (fun f => f.id = impact.featureId) with
        | some f => some f.name
        | none => some impact.featureId
    let feature_display := match feature_name with
      | some n => if n = "" then impact.featureId else n
      | none => impact.featureId
    match call_claude agent (impact_prompt service_name company feature_display impact) with
    | none => impact
    | some result =>
      match classify_response result with
      | .explicitNone => impact
      | .miss => impact
      | .candidate u =>
        if validate_url fetch u (impact_keywords impact) then
          { impact with sourceUrl := some u }
        else impact
  else impact

/-! ## Orchestrator (main) -/

/-- The index-keyed write-back loop over completed futures: each completion
(i, v) executes eventImpacts[i] = v. -/
def applyCompletions (base : List Impact) (completions : List (Nat × Impact)) : List Impact :=
  completions.foldl (fun acc q => acc.set q.1 q.2) base

/-- The indexed task list submitted to the worker pool: one
enhance_impact_source task per impact, tagged with its original index. -/
def impact_tasks (agent : String → AgentOutcome) (fetch : String → FetchResult)
    (event_context : Option Event) (all_services : List Service)
    (impacts : List Impact) : List (Nat × Impact) :=
  impacts.enum.map (fun p => (p.1, enhance_impact_source agent fetch p.2 event_context all_services))

/-- event_context as computed in main: the first event (already enhanced
in place) when the events list is present and non-empty. -/
def main_event_context (agent : String → AgentOutcome) (fetch : String → FetchResult)
    (data : Dataset) : Option Event :=
  match data.events.map (List.map (enhance_event_source agent fetch)) with
  | some (e :: _) => some e
  | _ => none

/-- The stdin-to-stdout transform of main after JSON parsing: events are
enhanced sequentially in place; impacts are submitted to the pool, and the
completions — collected in the arbitrary order completionOrder — are
written back keyed by original index.  Absent top-level keys are treated
as empty and never added to the document. -/
def run_main (agent : String → AgentOutcome) (fetch : String → FetchResult)
    (completionOrder : List (Nat × Impact) → List (Nat × Impact))
    (data : Dataset) : Dataset :=
  let newEvents := data.events.map (List.map (enhance_event_source agent fetch))
  let event_context := main_event_context agent fetch data
  let all_services := data.services.getD []
  let impacts := data.eventImpacts.getD []
  let completions := completionOrder (impact_tasks agent fetch event_context all_services impacts)
  let newImpacts := data.eventImpacts.map (fun imps => applyCompletions imps completions)
  { data with events := newEvents, eventImpacts := newImpacts }

/-! ## Concrete inputs used by the witness theorems -/

/-- An agent oracle whose every call times out. -/
def agent0 : String → AgentOutcome := fun _ => AgentOutcome.timeoutExpired

/-- A fetch oracle whose every call raises. -/
def fetch0 : String → FetchResult := fun _ => FetchResult.failure

/-- A JSON document with none of the three top-level collection keys. -/
def data0 : Dataset :=
  { events := none, eventImpacts := none, services := none, extra := [] }

/-- An event whose sources key is absent. -/
def event0 : Event :=
  { id := "aws-outage", title := "AWS outage", description := "US-EAST-1 down",
    awsServicesAffected := ["DynamoDB"], sources := none, extra := [] }

/-- A source with a specific, non-problematic URL. -/
def source1 : Source :=
  { url := some "https://aws.amazon.com/message/101010/", extra := [] }

/-- An event with one non-problematic source. -/
def event1 : Event :=
  { id := "aws-outage", title := "AWS outage", description := "US-EAST-1 down",
    awsServicesAffected := ["DynamoDB"], sources := some [source1], extra := [] }

/-- An impact with a non-problematic sourceUrl. -/
def impact1 : Impact :=
  { serviceId := "svc-one", featureId := "feat-one", impactType := "outage",
    description := "login failed",
    sourceUrl := some "https://news.example.com/aws-outage-2025", extra := [] }

/-- A second impact with a non-problematic sourceUrl. -/
def impact2 : Impact :=
  { serviceId := "svc-two", featureId := "feat-two", impactType := "degraded",
    description := "slow api",
    sourceUrl := some "https://blog.example.com/incident-2025", extra := [] }

/-- A service for the lookup table. -/
def service1 : Service :=
  { id := "svc-one", name := "Service One", company := "CompanyOne",
    features := some [{ id := "feat-one", name := "Feature One" }], extra := [] }

/-- A small dataset in which every reference is already non-problematic. -/
def data1 : Dataset :=
  { events := some [event1], eventImpacts := some [impact1, impact2],
    services := some [service1], extra := [] }

/-! ## Helper lemmas -/

/-- findSome? yields none exactly when the function yields none on every
element. -/
theorem findSome_eq_none_iff {α β : Type} (f : α → Option β) :
    ∀ l : List α, l.findSome? f = none ↔ ∀ x ∈ l, f x = none := by
  intro l
  induction l with
  | nil => simp
  | cons a t ih =>
    cases hfa : f a <;> simp [List.findSome?_cons, hfa, ih]

/-- A findSome? of a guarded some is a find? over the mapped list. -/
theorem findSome_if_eq_find_map {α β : Type} (g : α → β) (p : β → Bool) :
    ∀ l : List α,
      l.findSome? (fun x => if p (g x) then some (g x) else none) = (l.map g).find? p := by
  intro l
  induction l with
  | nil => simp
  | cons a t ih =>
    by_cases hp : p (g a) <;> simp [List.findSome?_cons, List.find?_cons, hp, ih]

/-- Pointwise relation between a list and its map. -/
theorem forall2_map_self {α β : Type} (r : α → β → Prop) (f : α → β) :
    ∀ l : List α, (∀ x ∈ l, r x (f x)) → List.Forall₂ r l (l.map f) := by
  intro l
  induction l with
  | nil => intro _; exact List.Forall₂.nil
  | cons a t ih =>
    intro h
    exact List.Forall₂.cons (h a (List.mem_cons_self a t))
      (ih (fun x hx => h x (List.mem_cons_of_mem a hx)))

/-- Every run of the per-source enhancement either keeps the source
unchanged or rewrites only its url to a candidate that passed validation
against the event keywords. -/
theorem enhance_source_cases (agent : String → AgentOutcome) (fetch : String → FetchResult)
    (event : Event) (source : Source) :
    enhance_source agent fetch event source = source
    ∨ ∃ u, enhance_source agent fetch event source = { source with url := some u }
        ∧ validate_url fetch u (event_keywords event) = true := by
  unfold enhance_source
  split
  · split
    · left; rfl
    · split
      · left; rfl
      · left; rfl
      · split
        · next u _ hv => right; exact ⟨u, rfl, hv⟩
        · left; rfl
  · left; rfl

/-- Every run of the per-impact enhancement either keeps the impact
unchanged or rewrites only its sourceUrl to a candidate that passed
validation against the impact keywords. -/
theorem enhance_impact_source_cases (agent : String → AgentOutcome) (fetch : String → FetchResult)
    (impact : Impact) (ctx : Option Event) (services : List Service) :
    enhance_impact_source agent fetch impact ctx services = impact
    ∨ ∃ u, enhance_impact_source agent fetch impact ctx services
          = { impact with sourceUrl := some u }
        ∧ validate_url fetch u (impact_keywords impact) = true := by
  unfold enhance_impact_source
  split
  · dsimp only
    split
    · left; rfl
    · split
      · left; rfl
      · left; rfl
      · split
        · next u _ hv => right; exact ⟨u, rfl, hv⟩
        · left; rfl
  · left; rfl

/-- Entry j of the index-keyed write-back loop: the mapped value when j is
among the written indices, the accumulator entry otherwise.  Requires that
every completion carries the value determined by its own index. -/
theorem foldl_set_getElem (f : Impact → Impact) (imps : List Impact) :
    ∀ (cs : List (Nat × Impact)) (acc : List Impact),
      acc.length = imps.length →
      (∀ p ∈ cs, ∃ x, imps[p.1]? = some x ∧ p.2 = f x) →
      ∀ j : Nat,
        (cs.foldl (fun a q => a.set q.1 q.2) acc)[j]? =
          if j ∈ cs.map Prod.fst then (imps[j]?).map f else acc[j]? := by
  intro cs
  induction cs with
  | nil => intro acc _ _ j; simp
  | cons p cs ih =>
    intro acc hlen hmem j
    obtain ⟨i, v⟩ := p
    rw [List.foldl_cons]
    have hmem2 : ∀ q ∈ cs, ∃ x, imps[q.1]? = some x ∧ q.2 = f x :=
      fun q hq => hmem q (List.mem_cons_of_mem _ hq)
    have hlen2 : (acc.set i v).length = imps.length := by
      rw [List.length_set]; exact hlen
    rw [ih (acc.set i v) hlen2 hmem2 j]
    simp only [List.map_cons, List.mem_cons]
    by_cases hj1 : j ∈ cs.map Prod.fst
    · rw [if_pos hj1, if_pos (Or.inr hj1)]
    · by_cases hj2 : j = i
      · subst hj2
        obtain ⟨x, hx, hv⟩ := hmem (j, v) (List.mem_cons_self _ _)
        have hjlt : j < imps.length := by
          obtain ⟨h, _⟩ := List.getElem?_eq_some_iff.mp hx
          exact h
        rw [if_neg hj1, if_pos (Or.inl rfl)]
        rw [List.getElem?_set_self (by rw [hlen]; exact hjlt), hx]
        simp only [Option.map_some']
        exact congrArg some hv
      · rw [if_neg hj1, if_neg (by rintro (h | h); exact hj2 h; exact hj1 h)]
        rw [List.getElem?_set_ne (Ne.symm hj2)]

/-- Writing back the indexed tasks in any completion order reproduces the
elementwise map: writes are keyed by original index, so completion order
is irrelevant. -/
theorem applyCompletions_eq_map (f : Impact → Impact) (imps : List Impact)
    (cs : List (Nat × Impact))
    (hperm : cs.Perm (imps.enum.map (fun p => (p.1, f p.2)))) :
    applyCompletions imps cs = imps.map f := by
  have hmem : ∀ p ∈ cs, ∃ x, imps[p.1]? = some x ∧ p.2 = f x := by
    intro p hp
    have hp2 := hperm.mem_iff.mp hp
    obtain ⟨q, hq, rfl⟩ := List.mem_map.mp hp2
    have hg := List.mem_enum_iff_getElem?.mp hq
    exact ⟨q.2, hg, rfl⟩
  have hidx : ∀ j2 : Nat, (j2 ∈ cs.map Prod.fst ↔ j2 < imps.length) := by
    intro j2
    have hp2 : (cs.map Prod.fst).Perm
        ((imps.enum.map (fun p => (p.1, f p.2))).map Prod.fst) := hperm.map Prod.fst
    rw [hp2.mem_iff, List.map_map]
    have hcomp : (Prod.fst ∘ fun p : Nat × Impact => (p.1, f p.2)) = Prod.fst := by
      funext p; rfl
    rw [hcomp, List.enum_map_fst, List.mem_range]
  apply List.ext_getElem?
  intro j
  unfold applyCompletions
  rw [foldl_set_getElem f imps cs imps rfl hmem j]
  by_cases hj : j < imps.length
  · rw [if_pos ((hidx j).mpr hj), List.getElem?_map]
  · rw [if_neg (fun h => hj ((hidx j).mp h))]
    rw [List.getElem?_eq_none (Nat.le_of_not_lt hj), List.getElem?_map,
      List.getElem?_eq_none (Nat.le_of_not_lt hj)]
    rfl

/-- The events field of the output. -/
theorem run_main_events_eq (agent : String → AgentOutcome) (fetch : String → FetchResult)
    (completionOrder : List (Nat × Impact) → List (Nat × Impact)) (data : Dataset) :
    (run_main agent fetch completionOrder data).events
      = data.events.map (List.map (enhance_event_source agent fetch)) := rfl

/-- The services field of the output. -/
theorem run_main_services_eq (agent : String → AgentOutcome) (fetch : String → FetchResult)
    (completionOrder : List (Nat × Impact) → List (Nat × Impact)) (data : Dataset) :
    (run_main agent fetch completionOrder data).services = data.services := rfl

/-- The eventImpacts field of the output, for any completion order that is
a permutation of the submitted tasks. -/
theorem run_main_impacts_eq (agent : String → AgentOutcome) (fetch : String → FetchResult)
    (completionOrder : List (Nat × Impact) → List (Nat × Impact)) (data : Dataset)
    (hperm : (completionOrder (impact_tasks agent fetch (main_event_context agent fetch data)
        (data.services.getD []) (data.eventImpacts.getD []))).Perm
      (impact_tasks agent fetch (main_event_context agent fetch data)
        (data.services.getD []) (data.eventImpacts.getD []))) :
    (run_main agent fetch completionOrder data).eventImpacts
      = data.eventImpacts.map (List.map (fun imp =>
          enhance_impact_source agent fetch imp (main_event_context agent fetch data)
            (data.services.getD []))) := by
  have hrm : (run_main agent fetch completionOrder data).eventImpacts
      = data.eventImpacts.map (fun imps => applyCompletions imps
          (completionOrder (impact_tasks agent fetch (main_event_context agent fetch data)
            (data.services.getD []) (data.eventImpacts.getD [])))) := rfl
  rw [hrm]
  cases hdi : data.eventImpacts with
  | none => rfl
  | some imps =>
    rw [hdi] at hperm
    simp only [Option.getD_some] at hperm
    simp only [Option.map_some']
    congr 1
    exact applyCompletions_eq_map
      (fun imp => enhance_impact_source agent fetch imp (main_event_context agent fetch data)
        (data.services.getD [])) imps _ hperm

/-- Two datasets with equal fields are equal. -/
theorem dataset_eq_of_fields (d1 d2 : Dataset) (h1 : d1.events = d2.events)
    (h2 : d1.eventImpacts = d2.eventImpacts) (h3 : d1.services = d2.services)
    (h4 : d1.extra = d2.extra) : d1 = d2 := by
  cases d1; cases d2
  simp only at h1 h2 h3 h4
  subst h1; subst h2; subst h3; subst h4
  rfl

/-- A non-problematic source is left untouched. -/
theorem enhance_source_clean (agent : String → AgentOutcome) (fetch : String → FetchResult)
    (event : Event) (source : Source) (h : is_problematic_url source.url = false) :
    enhance_source agent fetch event source = source := by
  unfold enhance_source
  rw [h]
  simp

/-- An event all of whose sources are non-problematic is left untouched. -/
theorem enhance_event_source_clean (agent : String → AgentOutcome) (fetch : String → FetchResult)
    (event : Event) (h : ∀ s ∈ event.sources.getD [], is_problematic_url s.url = false) :
    enhance_event_source agent fetch event = event := by
  unfold enhance_event_source
  have hs : event.sources.map (List.map (enhance_source agent fetch event)) = event.sources := by
    cases hev : event.sources with
    | none => rfl
    | some srcs =>
      rw [hev] at h
      simp only [Option.getD_some] at h
      simp only [Option.map_some']
      congr 1
      calc List.map (enhance_source agent fetch event) srcs
          = List.map (fun s => s) srcs :=
            List.map_congr_left (fun s hsm => enhance_source_clean agent fetch event s (h s hsm))
        _ = srcs := List.map_id' srcs
  rw [hs]

/-- An impact with a non-problematic sourceUrl is left untouched. -/
theorem enhance_impact_source_clean (agent : String → AgentOutcome) (fetch : String → FetchResult)
    (impact : Impact) (ctx : Option Event) (services : List Service)
    (h : is_problematic_url impact.sourceUrl = false) :
    enhance_impact_source agent fetch impact ctx services = impact := by
  unfold enhance_impact_source
  rw [h]
  simp

/-! ## Claim theorems -/

/-- Claim C1: every Source.url and every EventImpact.sourceUrl of the
output is either the original value untouched or a URL that passed
validation with the keywords built for that record; on a failure at any
pipeline stage (research failure, extraction miss, validation failure) the
original value is kept, never cleared or replaced by an unvalidated
value. -/
theorem c1_enrichment_never_worsens :
    ∀ (agent : String → AgentOutcome) (fetch : String → FetchResult)
      (completionOrder : List (Nat × Impact) → List (Nat × Impact)) (data : Dataset),
      (completionOrder (impact_tasks agent fetch (main_event_context agent fetch data)
          (data.services.getD []) (data.eventImpacts.getD []))).Perm
        (impact_tasks agent fetch (main_event_context agent fetch data)
          (data.services.getD []) (data.eventImpacts.getD [])) →
      List.Forall₂ (fun e e2 => List.Forall₂ (fun s s2 =>
            s2.url = s.url
            ∨ ∃ u, s2.url = some u ∧ validate_url fetch u (event_keywords e) = true)
          (e.sources.getD []) (e2.sources.getD []))
        (data.events.getD []) ((run_main agent fetch completionOrder data).events.getD [])
      ∧ List.Forall₂ (fun imp imp2 =>
            imp2.sourceUrl = imp.sourceUrl
            ∨ ∃ u, imp2.sourceUrl = some u ∧ validate_url fetch u (impact_keywords imp) = true)
          (data.eventImpacts.getD [])
          ((run_main agent fetch completionOrder data).eventImpacts.getD []) := by
  intro agent fetch completionOrder data hperm
  constructor
  · rw [run_main_events_eq]
    cases data.events with
    | none => exact List.Forall₂.nil
    | some evs =>
      simp only [Option.map_some', Option.getD_some]
      apply forall2_map_self
      intro e _
      have hes : (enhance_event_source agent fetch e).sources
          = e.sources.map (List.map (enhance_source agent fetch e)) := rfl
      rw [hes]
      cases e.sources with
      | none => exact List.Forall₂.nil
      | some srcs =>
        simp only [Option.map_some', Option.getD_some]
        apply forall2_map_self
        intro s _
        rcases enhance_source_cases agent fetch e s with h | ⟨u, he, hv⟩
        · left; rw [h]
        · right; exact ⟨u, by rw [he], hv⟩
  · rw [run_main_impacts_eq agent fetch completionOrder data hperm]
    cases data.eventImpacts with
    | none => exact List.Forall₂.nil
    | some imps =>
      simp only [Option.map_some', Option.getD_some]
      apply forall2_map_self
      intro imp _
      rcases enhance_impact_source_cases agent fetch imp
          (main_event_context agent fetch data) (data.services.getD []) with h | ⟨u, he, hv⟩
      · left; rw [h]
      · right; exact ⟨u, by rw [he], hv⟩

/-- Witness for C1 at a concrete dataset and a reversed completion
order. -/
theorem c1_enrichment_never_worsens_witness :
    (List.reverse (impact_tasks agent0 fetch0 (main_event_context agent0 fetch0 data1)
        (data1.services.getD []) (data1.eventImpacts.getD []))).Perm
      (impact_tasks agent0 fetch0 (main_event_context agent0 fetch0 data1)
        (data1.services.getD []) (data1.eventImpacts.getD []))
    ∧ (List.Forall₂ (fun e e2 => List.Forall₂ (fun s s2 =>
            s2.url = s.url
            ∨ ∃ u, s2.url = some u ∧ validate_url fetch0 u (event_keywords e) = true)
          (e.sources.getD []) (e2.sources.getD []))
        (data1.events.getD []) ((run_main agent0 fetch0 List.reverse data1).events.getD [])
      ∧ List.Forall₂ (fun imp imp2 =>
            imp2.sourceUrl = imp.sourceUrl
            ∨ ∃ u, imp2.sourceUrl = some u ∧ validate_url fetch0 u (impact_keywords imp) = true)
          (data1.eventImpacts.getD [])
          ((run_main agent0 fetch0 List.reverse data1).eventImpacts.getD [])) :=
  ⟨List.reverse_perm _, c1_enrichment_never_worsens agent0 fetch0 List.reverse data1
    (List.reverse_perm _)⟩

/-- Claim C2, counterexample: a fetch that succeeds with the 2xx status
201 and a body containing the keyword is rejected by validate_url, because
the code compares the status against exactly 200. -/
theorem c2_two_xx_counterexample :
    (200 ≤ 201 ∧ 201 < 300)
    ∧ str_contains (py_lower "AWS outage impacted DynamoDB") (py_lower "dynamodb") = true
    ∧ validate_url (fun _ => FetchResult.success 201 "AWS outage impacted DynamoDB")
        "https://news.example.com/aws" ["dynamodb"] = false := by
  decide

/-- Claim C2, amended: validate_url returns true iff the fetch returns a
response with status exactly 200 whose lower-cased body contains at least
one lower-cased keyword; every fetch failure (network error, timeout) and
every other status, including other 2xx codes, yields false, and fetch
errors are never propagated. -/
theorem c2_validate_url_exact_200 :
    ∀ (fetch : String → FetchResult) (url : String) (keywords : List String),
      validate_url fetch url keywords = true ↔
        ∃ body, fetch url = FetchResult.success 200 body
          ∧ keywords.any (fun k => str_contains (py_lower body) (py_lower k)) = true := by
  intro fetch url keywords
  unfold validate_url
  cases hf : fetch url with
  | failure => simp [hf]
  | success status text =>
    by_cases hs : status = 200
    · subst hs; simp [hf]
    · simp [hf, hs]

/-- Claim C3: is_problematic_url is true on an absent or empty url, and on
a present non-empty url it is true iff some fixed generic pattern occurs
in the lower-cased URL, the URL has no query string, and the lower-cased
URL ends with that pattern (trailing slash stripped); in particular the
query-string example is kept and the bare status path is problematic. -/
theorem c3_is_problematic_url_spec :
    is_problematic_url none = true
    ∧ (∀ s : String, is_problematic_url (some s) = true ↔
        (s = "" ∨ ∃ p ∈ GENERIC_PATTERNS, str_contains (py_lower s) p = true
          ∧ url_query s = "" ∧ py_endswith (py_lower s) (rstrip_slash p) = true))
    ∧ is_problematic_url (some "https://status.example.com/status?id=7") = false
    ∧ is_problematic_url (some "https://status.example.com/status") = true := by
  refine ⟨rfl, ?_, by decide, by decide⟩
  intro s
  by_cases hs : s = ""
  · subst hs; simp [is_problematic_url]
  · simp [is_problematic_url, hs, List.any_eq_true, Bool.and_eq_true, decide_eq_true_eq]

/-- Claim C4: extraction scans the response lines in reverse order and
returns the first trimmed line starting with http, so the last matching
line wins on the documented example; it returns no candidate exactly when
no line trims to an http-prefixed string. -/
theorem c4_extract_url_last_match_wins :
    extract_url "some text\nhttps://a.example/x\nmore text\nhttps://b.example/y"
        = some "https://b.example/y"
    ∧ (∀ r : String, extract_url r
        = ((py_split r '\n').map py_strip).reverse.find? (fun l => py_startswith l "http"))
    ∧ (∀ r : String, extract_url r = none ↔
        ∀ line ∈ py_split r '\n', py_startswith (py_strip line) "http" = false) := by
  refine ⟨by decide, ?_, ?_⟩
  · intro r
    unfold extract_url
    rw [← List.map_reverse]
    exact findSome_if_eq_find_map py_strip (fun l => py_startswith l "http") _
  · intro r
    unfold extract_url
    rw [findSome_eq_none_iff]
    constructor
    · intro h line hline
      have h2 := h line (List.mem_reverse.mpr hline)
      by_cases hp : py_startswith (py_strip line) "http"
      · simp [hp] at h2
      · simpa using hp
    · intro h line hline
      have h2 := h line (List.mem_reverse.mp hline)
      simp [h2]

/-- Claim C5: only the response exactly equal to the literal NONE is
treated as the explicit no-answer sentinel; any response differing in
casing or by surrounding whitespace fails the strict equality and goes
down the normal extraction path, where these variants are plain misses. -/
theorem c5_none_sentinel_strict_equality :
    classify_response "NONE" = ResponseOutcome.explicitNone
    ∧ (∀ r : String, classify_response r = ResponseOutcome.explicitNone ↔ r = "NONE")
    ∧ classify_response "none" = ResponseOutcome.miss
    ∧ classify_response "None" = ResponseOutcome.miss
    ∧ classify_response " NONE " = ResponseOutcome.miss := by
  refine ⟨rfl, ?_, by decide, by decide, by decide⟩
  intro r
  unfold classify_response
  by_cases hr : r = "NONE"
  · simp [hr]
  · simp only [if_neg hr]
    cases h : extract_url r <;> simp [h, hr]

/-- Claim C6: call_claude returns the trimmed stdout exactly when the
agent completed with exit status zero, a non-empty trimmed output, and no
credit marker in the lower-cased output; every failure cause (non-zero
status, empty output, credit marker, timeout, any exception) collapses to
the uniform none outcome, and nothing is ever raised past the boundary. -/
theorem c6_call_claude_uniform_failure :
    ∀ (agent : String → AgentOutcome) (prompt : String) (r : String),
      call_claude agent prompt = some r ↔
        ∃ rc stdout stderr, agent prompt = AgentOutcome.completed rc stdout stderr
          ∧ rc = 0 ∧ py_strip stdout ≠ ""
          ∧ str_contains (py_lower (py_strip stdout)) "credit" = false
          ∧ r = py_strip stdout := by
  intro agent prompt r
  unfold call_claude
  cases ha : agent prompt with
  | timeoutExpired => simp [ha]
  | exn => simp [ha]
  | completed rc stdout stderr =>
    simp only [ha, AgentOutcome.completed.injEq]
    by_cases h1 : rc ≠ 0 ∨ py_strip stdout = ""
        ∨ str_contains (py_lower (py_strip stdout)) "credit" = true
    · rw [if_pos h1]
      constructor
      · intro h; exact Option.noConfusion h
      · rintro ⟨rc2, s2, e2, ⟨hrc, hsd, hse⟩, h0, hne, hcr, hr⟩
        subst hrc; subst hsd
        rcases h1 with h | h | h
        · exact absurd h0 h
        · exact absurd h hne
        · rw [hcr] at h; exact absurd h Bool.false_ne_true
    · rw [if_neg h1]
      push_neg at h1
      obtain ⟨h0, hne, hcr⟩ := h1
      simp only [Option.some.injEq]
      constructor
      · intro h
        exact ⟨rc, stdout, stderr, ⟨rfl, rfl, rfl⟩, h0, hne, by simpa using hcr, h.symm⟩
      · rintro ⟨rc2, s2, e2, ⟨hrc, hsd, hse⟩, hh0, hhne, hhcr, hr⟩
        subst hsd; exact hr.symm

/-- Claim C7: when every Source.url and every EventImpact.sourceUrl of
the input is non-problematic, the run is the identity on the dataset for
every agent oracle, fetch oracle and completion order: the output is
structurally identical to the input, and the independence from the two
oracles expresses that no research call and no validation fetch can
influence the result. -/
theorem c7_clean_dataset_identity :
    ∀ (agent : String → AgentOutcome) (fetch : String → FetchResult)
      (completionOrder : List (Nat × Impact) → List (Nat × Impact)) (data : Dataset),
      (∀ e ∈ data.events.getD [], ∀ s ∈ e.sources.getD [], is_problematic_url s.url = false) →
      (∀ imp ∈ data.eventImpacts.getD [], is_problematic_url imp.sourceUrl = false) →
      (completionOrder (impact_tasks agent fetch (main_event_context agent fetch data)
          (data.services.getD []) (data.eventImpacts.getD []))).Perm
        (impact_tasks agent fetch (main_event_context agent fetch data)
          (data.services.getD []) (data.eventImpacts.getD [])) →
      run_main agent fetch completionOrder data = data := by
  intro agent fetch completionOrder data hev himp hperm
  apply dataset_eq_of_fields
  · rw [run_main_events_eq]
    cases hde : data.events with
    | none => rfl
    | some evs =>
      rw [hde] at hev
      simp only [Option.getD_some] at hev
      simp only [Option.map_some']
      congr 1
      calc List.map (enhance_event_source agent fetch) evs
          = List.map (fun e => e) evs :=
            List.map_congr_left (fun e hem => enhance_event_source_clean agent fetch e (hev e hem))
        _ = evs := List.map_id' evs
  · rw [run_main_impacts_eq agent fetch completionOrder data hperm]
    cases hdi : data.eventImpacts with
    | none => rfl
    | some imps =>
      rw [hdi] at himp
      simp only [Option.getD_some] at himp
      simp only [Option.map_some']
      congr 1
      calc List.map (fun imp => enhance_impact_source agent fetch imp
              (main_event_context agent fetch data) (data.services.getD [])) imps
          = List.map (fun imp => imp) imps :=
            List.map_congr_left (fun imp him =>
              enhance_impact_source_clean agent fetch imp _ _ (himp imp him))
        _ = imps := List.map_id' imps
  · rfl
  · rfl

/-- Witness for C7 at a concrete dataset with only non-problematic URLs
and a reversed completion order. -/
theorem c7_clean_dataset_identity_witness :
    (∀ e ∈ data1.events.getD [], ∀ s ∈ e.sources.getD [], is_problematic_url s.url = false)
    ∧ (∀ imp ∈ data1.eventImpacts.getD [], is_problematic_url imp.sourceUrl = false)
    ∧ run_main agent0 fetch0 List.reverse data1 = data1 :=
  ⟨by decide, by decide,
    c7_clean_dataset_identity agent0 fetch0 List.reverse data1 (by decide) (by decide)
      (List.reverse_perm _)⟩

/-- Claim C8: for any completion order of the parallel impact workers
that is a permutation of the submitted tasks, the output impact sequence
is exactly the elementwise enhancement of the input sequence — same
count, original order, each processed impact written back at its original
index — and the event count is also preserved. -/
theorem c8_index_keyed_write_back :
    ∀ (agent : String → AgentOutcome) (fetch : String → FetchResult)
      (completionOrder : List (Nat × Impact) → List (Nat × Impact)) (data : Dataset),
      (completionOrder (impact_tasks agent fetch (main_event_context agent fetch data)
          (data.services.getD []) (data.eventImpacts.getD []))).Perm
        (impact_tasks agent fetch (main_event_context agent fetch data)
          (data.services.getD []) (data.eventImpacts.getD [])) →
      (run_main agent fetch completionOrder data).eventImpacts
          = data.eventImpacts.map (List.map (fun imp =>
              enhance_impact_source agent fetch imp (main_event_context agent fetch data)
                (data.services.getD [])))
        ∧ ((run_main agent fetch completionOrder data).eventImpacts.getD []).length
            = (data.eventImpacts.getD []).length
        ∧ ((run_main agent fetch completionOrder data).events.getD []).length
            = (data.events.getD []).length := by
  intro agent fetch completionOrder data hperm
  have himp := run_main_impacts_eq agent fetch completionOrder data hperm
  refine ⟨himp, ?_, ?_⟩
  · rw [himp]
    cases data.eventImpacts with
    | none => rfl
    | some imps => simp
  · rw [run_main_events_eq]
    cases data.events with
    | none => rfl
    | some evs => simp

/-- Witness for C8 at a concrete two-impact dataset and a reversed
completion order. -/
theorem c8_index_keyed_write_back_witness :
    (List.reverse (impact_tasks agent0 fetch0 (main_event_context agent0 fetch0 data1)
        (data1.services.getD []) (data1.eventImpacts.getD []))).Perm
      (impact_tasks agent0 fetch0 (main_event_context agent0 fetch0 data1)
        (data1.services.getD []) (data1.eventImpacts.getD []))
    ∧ ((run_main agent0 fetch0 List.reverse data1).eventImpacts
          = data1.eventImpacts.map (List.map (fun imp =>
              enhance_impact_source agent0 fetch0 imp (main_event_context agent0 fetch0 data1)
                (data1.services.getD [])))
        ∧ ((run_main agent0 fetch0 List.reverse data1).eventImpacts.getD []).length
            = (data1.eventImpacts.getD []).length
        ∧ ((run_main agent0 fetch0 List.reverse data1).events.getD []).length
            = (data1.events.getD []).length) :=
  ⟨List.reverse_perm _,
    c8_index_keyed_write_back agent0 fetch0 List.reverse data1 (List.reverse_perm _)⟩

/-- Claim C9: the services sequence of the output is identical to the
services sequence of the input, for every agent oracle, fetch oracle,
completion order and dataset: enrichment reads services only as a lookup
table and never mutates them. -/
theorem c9_services_read_only :
    ∀ (agent : String → AgentOutcome) (fetch : String → FetchResult)
      (completionOrder : List (Nat × Impact) → List (Nat × Impact)) (data : Dataset),
      (run_main agent fetch completionOrder data).services = data.services := by
  intro agent fetch completionOrder data
  rfl

/-- Claim C10: a document missing any of the top-level keys events,
eventImpacts or services, or an event missing its sources key, is
processed with the missing collection treated as empty; the (total) run
completes and the output does not gain the missing keys. -/
theorem c10_missing_keys_tolerated :
    ∀ (agent : String → AgentOutcome) (fetch : String → FetchResult)
      (completionOrder : List (Nat × Impact) → List (Nat × Impact)) (data : Dataset),
      (data.events = none → (run_main agent fetch completionOrder data).events = none)
      ∧ (data.eventImpacts = none →
          (run_main agent fetch completionOrder data).eventImpacts = none)
      ∧ (data.services = none → (run_main agent fetch completionOrder data).services = none)
      ∧ (∀ e : Event, e.sources = none → (enhance_event_source agent fetch e).sources = none) := by
  intro agent fetch completionOrder data
  refine ⟨?_, ?_, ?_, ?_⟩
  · intro h
    rw [run_main_events_eq, h]
    rfl
  · intro h
    have hrm : (run_main agent fetch completionOrder data).eventImpacts
        = data.eventImpacts.map (fun imps => applyCompletions imps
            (completionOrder (impact_tasks agent fetch (main_event_context agent fetch data)
              (data.services.getD []) (data.eventImpacts.getD [])))) := rfl
    rw [hrm, h]
    rfl
  · intro h
    rw [run_main_services_eq, h]
  · intro e h
    have hes : (enhance_event_source agent fetch e).sources
        = e.sources.map (List.map (enhance_source agent fetch e)) := rfl
    rw [hes, h]
    rfl

/-- Witness for C10 at a document with all collection keys absent and an
event with no sources key. -/
theorem c10_missing_keys_tolerated_witness :
    data0.events = none
    ∧ (run_main agent0 fetch0 id data0).events = none
    ∧ data0.eventImpacts = none
    ∧ (run_main agent0 fetch0 id data0).eventImpacts = none
    ∧ data0.services = none
    ∧ (run_main agent0 fetch0 id data0).services = none
    ∧ event0.sources = none
    ∧ (enhance_event_source agent0 fetch0 event0).sources = none :=
  ⟨rfl, (c10_missing_keys_tolerated agent0 fetch0 id data0).1 rfl,
    rfl, (c10_missing_keys_tolerated agent0 fetch0 id data0).2.1 rfl,
    rfl, (c10_missing_keys_tolerated agent0 fetch0 id data0).2.2.1 rfl,
    rfl, (c10_missing_keys_tolerated agent0 fetch0 id data0).2.2.2 event0 rfl⟩
